import Mathlib

/-!
Verification of `src/one.py` (trend-notify): a shallow embedding of the
market-trend analysis script together with proofs of its specification
claims.

The embedding follows the source file:
  * a pandas `DataFrame` row becomes a `Bar` (index date plus the three
    columns the code reads: `Open`, `High`, `Low`); a possibly malformed
    row (missing or non-numeric field) becomes a `RawBar` with optional
    price fields;
  * `Series.idxmax` / `Series.idxmin` (first index attaining the
    extremum) become `idxmaxBy` / `idxminBy`;
  * `data.loc[date]` becomes `loc?` (first row carrying that index);
  * `data.iloc[-1]` becomes `List.getLast?`;
  * `analyze_market`'s surrounding `try/except` — which turns any raise
    (empty frame, missing column, non-numeric value) into the sentinel
    result `(None, False, {})` — becomes the `Option`-valued
    `analyze_core` wrapped by the total `analyze_market`;
  * prices and the threshold are rationals (the floats of the source are
    treated as exact reals, as the spec does);
  * dates are calendar triples ordered lexicographically, as pandas
    timestamps are ordered chronologically.
-/

/-- A calendar date, ordered chronologically (lexicographically on
year, month, day), standing for the pandas timestamp index of a row. -/
structure Date where
  year : Nat
  month : Nat
  day : Nat
deriving DecidableEq, Repr

/-- Strict chronological order on dates (pandas `<` on timestamps). -/
def Date.ltb (a b : Date) : Bool :=
  (a.year < b.year) ||
    (a.year == b.year &&
      ((a.month < b.month) || (a.month == b.month && a.day < b.day)))

/-- `a > b` on dates, as written in the source (`date_of_lowest_low >
date_of_highest_high`). -/
def Date.gtb (a b : Date) : Bool := Date.ltb b a

/-- Zero-pad a numeral to two digits (for `%m`, `%d` of `strftime`). -/
def pad2 (n : Nat) : String :=
  if n < 10 then "0" ++ toString n else toString n

/-- Zero-pad a numeral to four digits (for `%Y` of `strftime`). -/
def pad4 (n : Nat) : String :=
  if n < 10 then "000" ++ toString n
  else if n < 100 then "00" ++ toString n
  else if n < 1000 then "0" ++ toString n
  else toString n

/-- `date.strftime('%Y-%m-%d')` of the source. -/
def Date.toIso (d : Date) : String :=
  pad4 d.year ++ "-" ++ pad2 d.month ++ "-" ++ pad2 d.day

/-- One well-formed price bar: the row fields `analyze_market` reads. -/
structure Bar where
  date : Date
  Open : ℚ
  High : ℚ
  Low : ℚ
deriving DecidableEq, Repr

/-- One raw input row: a price field is `none` when it is missing or
non-numeric, the failure modes the analyzer's `except` clause absorbs. -/
structure RawBar where
  date : Date
  Open : Option ℚ
  High : Option ℚ
  Low : Option ℚ
deriving DecidableEq, Repr

/-- Read one raw row as a well-formed bar, failing on a missing or
non-numeric field. -/
def parseBar (r : RawBar) : Option Bar :=
  match r.Open, r.High, r.Low with
  | some o, some h, some l => some ⟨r.date, o, h, l⟩
  | _, _, _ => none

/-- Read a whole raw window; `none` as soon as any row is malformed
(the first malformed field the pandas reduction touches raises). -/
def parseWindow : List RawBar → Option (List Bar)
  | [] => some []
  | r :: rs =>
    match parseBar r, parseWindow rs with
    | some b, some bs => some (b :: bs)
    | _, _ => none

/-- View a well-formed window as raw input. -/
def toRaw (w : List Bar) : List RawBar :=
  w.map (fun b => ⟨b.date, some b.Open, some b.High, some b.Low⟩)

/-- `Series.idxmax` over the rows: the first row attaining the maximum
of `f` (pandas keeps the first occurrence on ties). -/
def idxmaxBy (f : Bar → ℚ) : List Bar → Option Bar
  | [] => none
  | b :: bs =>
    match idxmaxBy f bs with
    | none => some b
    | some c => some (if f b < f c then c else b)

/-- `Series.idxmin` over the rows: the first row attaining the minimum
of `f`. -/
def idxminBy (f : Bar → ℚ) : List Bar → Option Bar
  | [] => none
  | b :: bs =>
    match idxminBy f bs with
    | none => some b
    | some c => some (if f c < f b then c else b)

/-- `data.loc[d]`: the first row whose index equals `d`. -/
def loc? (w : List Bar) (d : Date) : Option Bar :=
  w.find? (fun b => b.date == d)

/-- Python's built-in `abs` on an exact rational. -/
def ratAbs (q : ℚ) : ℚ :=
  if q < 0 then -q else q

/-- The `action_details` dictionary built by `analyze_market`
(src/one.py lines 73–93): `none` fields are the dictionary's `None`
values before a breakout fills them in. -/
structure ActionDetails where
  trend : String
  current_price : ℚ
  latest_date : String
  action : Option String
  stoploss : Option ℚ
  target : Option ℚ
  high_date : String
  low_date : String
deriving DecidableEq, Repr

/-- The body of `analyze_market`'s `try` block (src/one.py lines 50–95).
`none` is a raised exception: empty window (idxmax/idxmin of an empty
series), or a failed row lookup. -/
def analyze_core (data : List Bar) (threshold : ℚ) :
    Option (Option String × Bool × Option ActionDetails) :=
  match idxmaxBy Bar.High data, idxminBy Bar.Low data, data.getLast? with
  | some hb0, some lb0, some today =>
    let date_of_highest_high := hb0.date
    let date_of_lowest_low := lb0.date
    match loc? data date_of_highest_high, loc? data date_of_lowest_low with
    | some hrow, some lrow =>
      let highest_high_val := hrow.High
      let lowest_low_val := lrow.Low
      let current_trend : String :=
        if Date.gtb date_of_lowest_low date_of_highest_high then "up" else "down"
      let signal_breakout : Bool :=
        if current_trend == "up" then
          decide (ratAbs (today.Open - today.Low) ≤ threshold)
        else if current_trend == "down" then
          decide (ratAbs (today.Open - today.High) ≤ threshold)
        else false
      let base : ActionDetails :=
        { trend := current_trend
          current_price := today.Open
          latest_date := Date.toIso today.date
          action := none
          stoploss := none
          target := none
          high_date := Date.toIso date_of_highest_high
          low_date := Date.toIso date_of_lowest_low }
      let action_details : ActionDetails :=
        if signal_breakout then
          if current_trend == "up" then
            { base with action := some "BUY", stoploss := some lowest_low_val,
                        target := some highest_high_val }
          else if current_trend == "down" then
            { base with action := some "SELL", stoploss := some highest_high_val,
                        target := some lowest_low_val }
          else base
        else base
      some (some current_trend, signal_breakout, some action_details)
    | _, _ => none
  | _, _, _ => none

/-- `analyze_market(data, threshold)` (src/one.py lines 44–99): the
`try` body on success, and the `except` clause's `(None, False, {})`
on any failure (empty window, malformed row, raised lookup). In the
source the threshold parameter defaults to `3`. -/
def analyze_market (data : List RawBar) (threshold : ℚ) :
    Option String × Bool × Option ActionDetails :=
  match parseWindow data with
  | none => (none, false, none)
  | some bars =>
    match analyze_core bars threshold with
    | none => (none, false, none)
    | some out => out

/-- A window is well-formed when its rows are chronologically strictly
ascending (spec §3: PriceWindow is ordered, chronologically ascending,
with one bar per trading day). -/
def WellFormed (w : List Bar) : Prop :=
  w.Pairwise (fun a b => Date.ltb a.date b.date = true)

instance : DecidablePred WellFormed := fun w =>
  List.instDecidablePairwise w

/-- `analyze_market` with the window state threaded explicitly. The
source body performs only read operations on `data` (`idxmax`,
`idxmin`, `loc`, `iloc`), never a write, so the window after the call
is the window that was passed in. -/
def analyze_market_call (data : List RawBar) (threshold : ℚ) :
    (Option String × Bool × Option ActionDetails) × List RawBar :=
  (analyze_market data threshold, data)

/-- `RECEIVER_EMAIL` of src/one.py line 25. -/
def RECEIVER_EMAIL : String := "keshavaradha990@gmail.com"

/-- Python's `'{:.2f}'.format` on an exact rational price: round to the
nearest hundredth and print with exactly two decimals. -/
def formatQ2 (q : ℚ) : String :=
  let n : ℤ := round (q * 100)
  let sgn := if n < 0 then "-" else ""
  let m : ℕ := n.natAbs
  sgn ++ toString (m / 100) ++ "." ++ pad2 (m % 100)

/-- The subject line built in `main` (src/one.py line 177). -/
def mkSubject (action symbol : String) : String :=
  "Trade Signal: " ++ action ++ " " ++ symbol

/-- `BODY_TEMPLATE.format(**details)` (src/one.py lines 29–42 and 174):
the triple-quoted template, which opens and closes with a newline,
instantiated with the details dictionary's fields. -/
def BODY_TEMPLATE_format (action symbol trend : String) (current_price : ℚ)
    (latest_date : String) (stoploss target : ℚ)
    (high_date low_date : String) : String :=
  "\nAction Alert: " ++ action ++ " " ++ symbol ++
  "\n\nCurrent Trend: " ++ trend ++
  "\nCurrent Price: " ++ formatQ2 current_price ++
  "\nMarket Date: " ++ latest_date ++
  "\n\n--- Trade Setup ---" ++
  "\nStoploss: " ++ formatQ2 stoploss ++
  "\nTarget: " ++ formatQ2 target ++
  "\n\nHigh Reference: " ++ high_date ++
  "\nLow Reference: " ++ low_date ++ "\n"

/-- The §6 notification body written from the spec's words: the fenced
template block — twelve lines from "Action Alert" to "Low Reference",
ending in a newline before the closing fence — instantiated with the
recommendation's fields, prices rendered to two decimals and dates as
YYYY-MM-DD strings. This definition follows the spec, for comparison
with `BODY_TEMPLATE_format`, which is embedded from the source. -/
def specBodyTemplate (action symbol trend : String) (current_price : ℚ)
    (as_of_date : String) (stoploss target : ℚ)
    (high_reference_date low_reference_date : String) : String :=
  "Action Alert: " ++ action ++ " " ++ symbol ++
  "\n\nCurrent Trend: " ++ trend ++
  "\nCurrent Price: " ++ formatQ2 current_price ++
  "\nMarket Date: " ++ as_of_date ++
  "\n\n--- Trade Setup ---" ++
  "\nStoploss: " ++ formatQ2 stoploss ++
  "\nTarget: " ++ formatQ2 target ++
  "\n\nHigh Reference: " ++ high_reference_date ++
  "\nLow Reference: " ++ low_reference_date ++ "\n"

/-- `get_data` (src/one.py lines 101–111): the provider's answer for a
symbol, with a raised fetch (`provider s = none`) turned into the empty
frame by the `except` clause. -/
def get_data (provider : String → Option (List RawBar))
    (ticker_symbol : String) : List RawBar :=
  match provider ticker_symbol with
  | some data => data
  | none => []

/-- `get_trend_details` (src/one.py lines 113–119): fetch, short-circuit
an empty frame, then analyze with the analyzer's default threshold 3. -/
def get_trend_details (provider : String → Option (List RawBar))
    (ticker_symbol : String) : Option String × Bool × Option ActionDetails :=
  let data := get_data provider ticker_symbol
  if data.isEmpty then (none, false, none)
  else analyze_market data 3

/-- What one iteration of `main`'s loop (src/one.py lines 165–188)
records for a symbol: the analysis it saw and, when a signal fired and
the details dictionary could be formatted, the delivery attempt
(subject, body, recipient) handed to `send_mail`. `send_mail` traps its
own transport errors, so a delivery attempt is recorded whether or not
the transport succeeds. -/
structure SymbolOutcome where
  symbol : String
  trend : Option String
  signal : Bool
  delivered : Option (String × String × String)
deriving DecidableEq, Repr

/-- The body of `main`'s per-symbol `try` (src/one.py lines 166–185).
The fallback branches are the loop's `except`: a details dictionary
without the keys or numeric values the template needs would raise in
`BODY_TEMPLATE.format`, which is caught at the symbol boundary and
recorded as no delivery. -/
def processSymbol (provider : String → Option (List RawBar))
    (symbol : String) : SymbolOutcome :=
  match get_trend_details provider symbol with
  | (trend, signal, details) =>
    if signal then
      match details with
      | some d =>
        match d.action, d.stoploss, d.target with
        | some act, some sl, some tg =>
          { symbol := symbol, trend := trend, signal := signal
            delivered := some
              (mkSubject act symbol,
               BODY_TEMPLATE_format act symbol d.trend d.current_price
                 d.latest_date sl tg d.high_date d.low_date,
               RECEIVER_EMAIL) }
        | _, _, _ =>
          { symbol := symbol, trend := trend, signal := signal, delivered := none }
      | none =>
        { symbol := symbol, trend := trend, signal := signal, delivered := none }
    else
      { symbol := symbol, trend := trend, signal := signal, delivered := none }

/-- `main`'s loop over the ticker list: one iteration per symbol, in
list order, no state carried across iterations. -/
def runBatch (provider : String → Option (List RawBar))
    (symbols : List String) : List SymbolOutcome :=
  symbols.map (processSymbol provider)

/-- `load_tickers` (src/one.py lines 142–152) applied to the file's
lines: `[line.strip() for line in f if line.strip()]`. -/
def load_tickers (fileLines : List String) : List String :=
  (fileLines.filter (fun line => line.trim != "")).map (fun line => line.trim)

/-- `main` (src/one.py lines 154–191): load the ticker file, stop early
when it yields nothing, otherwise run the batch loop. -/
def main_run (fileLines : List String)
    (provider : String → Option (List RawBar)) : List SymbolOutcome :=
  let ticker_symbols := load_tickers fileLines
  if ticker_symbols.isEmpty then []
  else runBatch provider ticker_symbols

/-- The value `analyze_market` computes on a well-formed window, written
directly in terms of the selected extreme bars and the last bar. -/
def coreResult (hb lb today : Bar) (threshold : ℚ) :
    Option String × Bool × Option ActionDetails :=
  let current_trend : String :=
    if Date.gtb lb.date hb.date then "up" else "down"
  let signal_breakout : Bool :=
    if current_trend == "up" then
      decide (ratAbs (today.Open - today.Low) ≤ threshold)
    else if current_trend == "down" then
      decide (ratAbs (today.Open - today.High) ≤ threshold)
    else false
  let base : ActionDetails :=
    { trend := current_trend
      current_price := today.Open
      latest_date := Date.toIso today.date
      action := none
      stoploss := none
      target := none
      high_date := Date.toIso hb.date
      low_date := Date.toIso lb.date }
  let action_details : ActionDetails :=
    if signal_breakout then
      if current_trend == "up" then
        { base with action := some "BUY", stoploss := some lb.Low,
                    target := some hb.High }
      else if current_trend == "down" then
        { base with action := some "SELL", stoploss := some hb.High,
                    target := some lb.Low }
      else base
    else base
  (some current_trend, signal_breakout, some action_details)

/-! Concrete windows used by the witness theorems. -/

/-- Example bar: 2024-01-01, the window's highest high. -/
def bA1 : Bar := ⟨⟨2024, 1, 1⟩, 100, 110, 95⟩

/-- Example bar: 2024-01-02, interior bar. -/
def bA2 : Bar := ⟨⟨2024, 1, 2⟩, 101, 105, 90⟩

/-- Example bar: 2024-01-03, the window's lowest low and last bar. -/
def bA3 : Bar := ⟨⟨2024, 1, 3⟩, 91, 104, 89⟩

/-- Example ascending window: low after high, so trend "up"; the last
bar opens within 3 of its low, so the breakout triggers. -/
def wexA : List Bar := [bA1, bA2, bA3]

/-- Example bar for the tie-break witness: first of two 120-highs. -/
def bT1 : Bar := ⟨⟨2024, 2, 1⟩, 10, 120, 9⟩

/-- Example bar for the tie-break witness: second 120-high, first 8-low. -/
def bT2 : Bar := ⟨⟨2024, 2, 2⟩, 10, 120, 8⟩

/-- Example bar for the tie-break witness: second 8-low. -/
def bT3 : Bar := ⟨⟨2024, 2, 3⟩, 10, 115, 8⟩

/-- Example ascending window with a tied maximum high (bT1, bT2) and a
tied minimum low (bT2, bT3). -/
def wexT : List Bar := [bT1, bT2, bT3]

/-- The details record `analyze_market` computes on `wexA`. -/
def dRecA : ActionDetails :=
  { trend := "up", current_price := bA3.Open
    latest_date := Date.toIso bA3.date
    action := some "BUY", stoploss := some bA3.Low, target := some bA1.High
    high_date := Date.toIso bA1.date, low_date := Date.toIso bA3.date }

/-! Helper lemmas about the embedded operations. -/

theorem ratAbs_eq_abs (q : ℚ) : ratAbs q = |q| := by
  rw [ratAbs]
  by_cases h : q < 0
  · rw [if_pos h, abs_of_neg h]
  · rw [if_neg h, abs_of_nonneg (le_of_not_lt h)]


theorem Date.ltb_irrefl (a : Date) : Date.ltb a a = false := by
  simp [Date.ltb]

theorem Date.ne_of_ltb {a b : Date} (h : Date.ltb a b = true) : a ≠ b := by
  intro he
  subst he
  rw [Date.ltb_irrefl] at h
  exact Bool.false_ne_true h

theorem parseWindow_toRaw (w : List Bar) : parseWindow (toRaw w) = some w := by
  induction w with
  | nil => rfl
  | cons b bs ih =>
    simp only [toRaw, List.map_cons] at *
    rw [parseWindow, ih]
    rfl

theorem idxmaxBy_isSome (f : Bar → ℚ) (b : Bar) (bs : List Bar) :
    ∃ r, idxmaxBy f (b :: bs) = some r := by
  rw [idxmaxBy]
  cases idxmaxBy f bs with
  | none => exact ⟨b, rfl⟩
  | some c => exact ⟨_, rfl⟩

theorem idxmaxBy_eq_none {f : Bar → ℚ} :
    ∀ {w : List Bar}, idxmaxBy f w = none → w = []
  | [], _ => rfl
  | b :: bs, h => by
    obtain ⟨r, hr⟩ := idxmaxBy_isSome f b bs
    rw [hr] at h
    exact absurd h (by simp)

theorem idxmaxBy_mem {f : Bar → ℚ} :
    ∀ {w : List Bar} {r : Bar}, idxmaxBy f w = some r → r ∈ w := by
  intro w
  induction w with
  | nil => intro r h; simp [idxmaxBy] at h
  | cons b bs ih =>
    intro r h
    rw [idxmaxBy] at h
    cases hbs : idxmaxBy f bs with
    | none =>
      rw [hbs] at h
      simp only [Option.some.injEq] at h
      subst h
      exact List.mem_cons_self _ _
    | some c =>
      rw [hbs] at h
      simp only [Option.some.injEq] at h
      subst h
      by_cases hlt : f b < f c
      · rw [if_pos hlt]; exact List.mem_cons_of_mem _ (ih hbs)
      · rw [if_neg hlt]; exact List.mem_cons_self _ _

theorem idxmaxBy_le {f : Bar → ℚ} :
    ∀ {w : List Bar} {r : Bar}, idxmaxBy f w = some r → ∀ x ∈ w, f x ≤ f r := by
  intro w
  induction w with
  | nil => intro r h; simp [idxmaxBy] at h
  | cons b bs ih =>
    intro r h x hx
    rw [idxmaxBy] at h
    cases hbs : idxmaxBy f bs with
    | none =>
      have hnil : bs = [] := idxmaxBy_eq_none hbs
      subst hnil
      rw [hbs] at h
      simp only [Option.some.injEq] at h
      subst h
      rcases List.mem_singleton.mp hx with rfl
      exact le_refl _
    | some c =>
      rw [hbs] at h
      simp only [Option.some.injEq] at h
      subst h
      rcases List.mem_cons.mp hx with rfl | hx'
      · by_cases hlt : f x < f c
        · rw [if_pos hlt]; exact le_of_lt hlt
        · rw [if_neg hlt]
      · by_cases hlt : f b < f c
        · rw [if_pos hlt]; exact ih hbs x hx'
        · rw [if_neg hlt]; exact le_trans (ih hbs x hx') (le_of_not_lt hlt)

theorem idxmaxBy_earliest {f : Bar → ℚ} :
    ∀ {w : List Bar} {r : Bar}, WellFormed w → idxmaxBy f w = some r →
      ∀ x ∈ w, f x = f r → x = r ∨ Date.ltb r.date x.date = true := by
  intro w
  induction w with
  | nil => intro r _ h; simp [idxmaxBy] at h
  | cons b bs ih =>
    intro r hw h x hx hfx
    rw [WellFormed, List.pairwise_cons] at hw
    obtain ⟨hhead, hw'⟩ := hw
    rw [idxmaxBy] at h
    cases hbs : idxmaxBy f bs with
    | none =>
      have hnil : bs = [] := idxmaxBy_eq_none hbs
      subst hnil
      rw [hbs] at h
      simp only [Option.some.injEq] at h
      subst h
      rcases List.mem_singleton.mp hx with rfl
      exact Or.inl rfl
    | some c =>
      rw [hbs] at h
      simp only [Option.some.injEq] at h
      subst h
      by_cases hlt : f b < f c
      · rw [if_pos hlt] at hfx ⊢
        rcases List.mem_cons.mp hx with rfl | hx'
        · exact absurd hfx (ne_of_lt hlt)
        · exact ih hw' hbs x hx' hfx
      · rw [if_neg hlt] at hfx ⊢
        rcases List.mem_cons.mp hx with rfl | hx'
        · exact Or.inl rfl
        · exact Or.inr (hhead x hx')

theorem idxminBy_isSome (f : Bar → ℚ) (b : Bar) (bs : List Bar) :
    ∃ r, idxminBy f (b :: bs) = some r := by
  rw [idxminBy]
  cases idxminBy f bs with
  | none => exact ⟨b, rfl⟩
  | some c => exact ⟨_, rfl⟩

theorem idxminBy_eq_none {f : Bar → ℚ} :
    ∀ {w : List Bar}, idxminBy f w = none → w = []
  | [], _ => rfl
  | b :: bs, h => by
    obtain ⟨r, hr⟩ := idxminBy_isSome f b bs
    rw [hr] at h
    exact absurd h (by simp)

theorem idxminBy_mem {f : Bar → ℚ} :
    ∀ {w : List Bar} {r : Bar}, idxminBy f w = some r → r ∈ w := by
  intro w
  induction w with
  | nil => intro r h; simp [idxminBy] at h
  | cons b bs ih =>
    intro r h
    rw [idxminBy] at h
    cases hbs : idxminBy f bs with
    | none =>
      rw [hbs] at h
      simp only [Option.some.injEq] at h
      subst h
      exact List.mem_cons_self _ _
    | some c =>
      rw [hbs] at h
      simp only [Option.some.injEq] at h
      subst h
      by_cases hlt : f c < f b
      · rw [if_pos hlt]; exact List.mem_cons_of_mem _ (ih hbs)
      · rw [if_neg hlt]; exact List.mem_cons_self _ _

theorem idxminBy_le {f : Bar → ℚ} :
    ∀ {w : List Bar} {r : Bar}, idxminBy f w = some r → ∀ x ∈ w, f r ≤ f x := by
  intro w
  induction w with
  | nil => intro r h; simp [idxminBy] at h
  | cons b bs ih =>
    intro r h x hx
    rw [idxminBy] at h
    cases hbs : idxminBy f bs with
    | none =>
      have hnil : bs = [] := idxminBy_eq_none hbs
      subst hnil
      rw [hbs] at h
      simp only [Option.some.injEq] at h
      subst h
      rcases List.mem_singleton.mp hx with rfl
      exact le_refl _
    | some c =>
      rw [hbs] at h
      simp only [Option.some.injEq] at h
      subst h
      rcases List.mem_cons.mp hx with rfl | hx'
      · by_cases hlt : f c < f x
        · rw [if_pos hlt]; exact le_of_lt hlt
        · rw [if_neg hlt]
      · by_cases hlt : f c < f b
        · rw [if_pos hlt]; exact ih hbs x hx'
        · rw [if_neg hlt]; exact le_trans (le_of_not_lt hlt) (ih hbs x hx')

theorem idxminBy_earliest {f : Bar → ℚ} :
    ∀ {w : List Bar} {r : Bar}, WellFormed w → idxminBy f w = some r →
      ∀ x ∈ w, f x = f r → x = r ∨ Date.ltb r.date x.date = true := by
  intro w
  induction w with
  | nil => intro r _ h; simp [idxminBy] at h
  | cons b bs ih =>
    intro r hw h x hx hfx
    rw [WellFormed, List.pairwise_cons] at hw
    obtain ⟨hhead, hw'⟩ := hw
    rw [idxminBy] at h
    cases hbs : idxminBy f bs with
    | none =>
      have hnil : bs = [] := idxminBy_eq_none hbs
      subst hnil
      rw [hbs] at h
      simp only [Option.some.injEq] at h
      subst h
      rcases List.mem_singleton.mp hx with rfl
      exact Or.inl rfl
    | some c =>
      rw [hbs] at h
      simp only [Option.some.injEq] at h
      subst h
      by_cases hlt : f c < f b
      · rw [if_pos hlt] at hfx ⊢
        rcases List.mem_cons.mp hx with rfl | hx'
        · exact absurd hfx.symm (ne_of_lt hlt)
        · exact ih hw' hbs x hx' hfx
      · rw [if_neg hlt] at hfx ⊢
        rcases List.mem_cons.mp hx with rfl | hx'
        · exact Or.inl rfl
        · exact Or.inr (hhead x hx')

theorem loc?_self :
    ∀ {w : List Bar}, WellFormed w → ∀ {b : Bar}, b ∈ w → loc? w b.date = some b := by
  intro w
  induction w with
  | nil => intro _ b hb; cases hb
  | cons a t ih =>
    intro hw b hb
    rw [WellFormed, List.pairwise_cons] at hw
    obtain ⟨hhead, hw'⟩ := hw
    rcases List.mem_cons.mp hb with rfl | hb'
    · rw [loc?, List.find?_cons_of_pos _ (by simp)]
    · have hne : a.date ≠ b.date := Date.ne_of_ltb (hhead b hb')
      rw [loc?, List.find?_cons_of_neg _ (by simpa using hne)]
      exact ih hw' hb'

theorem getLast?_latest :
    ∀ {w : List Bar}, WellFormed w → ∀ {t : Bar}, w.getLast? = some t →
      ∀ x ∈ w, x = t ∨ Date.ltb x.date t.date = true := by
  intro w
  induction w with
  | nil => intro _ t ht; simp at ht
  | cons a l ih =>
    intro hw t ht x hx
    rw [WellFormed, List.pairwise_cons] at hw
    obtain ⟨hhead, hw'⟩ := hw
    cases l with
    | nil =>
      simp only [List.getLast?_singleton, Option.some.injEq] at ht
      subst ht
      rcases List.mem_singleton.mp hx with rfl
      exact Or.inl rfl
    | cons b l' =>
      rw [List.getLast?_cons_cons] at ht
      rcases List.mem_cons.mp hx with rfl | hx'
      · exact Or.inr (hhead t (List.mem_of_getLast?_eq_some ht))
      · exact ih hw' ht x hx'

theorem analyze_core_eq {w : List Bar} (hw : WellFormed w)
    {hb lb today : Bar}
    (hhb : idxmaxBy Bar.High w = some hb) (hlb : idxminBy Bar.Low w = some lb)
    (ht : w.getLast? = some today) (threshold : ℚ) :
    analyze_core w threshold = some (coreResult hb lb today threshold) := by
  unfold analyze_core
  rw [hhb, hlb, ht]
  dsimp only
  rw [loc?_self hw (idxmaxBy_mem hhb), loc?_self hw (idxminBy_mem hlb)]
  rfl

theorem analyze_eq_coreResult {w : List Bar} (hw : WellFormed w)
    {hb lb today : Bar}
    (hhb : idxmaxBy Bar.High w = some hb) (hlb : idxminBy Bar.Low w = some lb)
    (ht : w.getLast? = some today) (threshold : ℚ) :
    analyze_market (toRaw w) threshold = coreResult hb lb today threshold := by
  unfold analyze_market
  rw [parseWindow_toRaw]
  dsimp only
  rw [analyze_core_eq hw hhb hlb ht]

theorem exists_getLastSome {w : List Bar} (hne : w ≠ []) :
    ∃ today, w.getLast? = some today := by
  cases ht : w.getLast? with
  | none => rw [List.getLast?_eq_none_iff] at ht; exact absurd ht hne
  | some t => exact ⟨t, rfl⟩

theorem exists_idxmaxSome {w : List Bar} (hne : w ≠ []) :
    ∃ hb, idxmaxBy Bar.High w = some hb := by
  cases w with
  | nil => exact absurd rfl hne
  | cons b bs => exact idxmaxBy_isSome Bar.High b bs

theorem exists_idxminSome {w : List Bar} (hne : w ≠ []) :
    ∃ lb, idxminBy Bar.Low w = some lb := by
  cases w with
  | nil => exact absurd rfl hne
  | cons b bs => exact idxminBy_isSome Bar.Low b bs

theorem coreResult_fst (hb lb today : Bar) (t : ℚ) :
    (coreResult hb lb today t).1 =
      some (if Date.gtb lb.date hb.date then "up" else "down") := rfl

theorem coreResult_snd_up {hb lb : Bar} (today : Bar) (t : ℚ)
    (h : Date.gtb lb.date hb.date = true) :
    (coreResult hb lb today t).2.1 = decide (ratAbs (today.Open - today.Low) ≤ t) := by
  simp [coreResult, h]

theorem coreResult_snd_down {hb lb : Bar} (today : Bar) (t : ℚ)
    (h : Date.gtb lb.date hb.date = false) :
    (coreResult hb lb today t).2.1 = decide (ratAbs (today.Open - today.High) ≤ t) := by
  simp [coreResult, h]

theorem coreResult_details_up {hb lb today : Bar} {t : ℚ}
    (h : Date.gtb lb.date hb.date = true)
    (hsig : ratAbs (today.Open - today.Low) ≤ t) :
    (coreResult hb lb today t).2.2 = some
      { trend := "up", current_price := today.Open
        latest_date := Date.toIso today.date
        action := some "BUY", stoploss := some lb.Low, target := some hb.High
        high_date := Date.toIso hb.date, low_date := Date.toIso lb.date } := by
  simp [coreResult, h, hsig]

theorem coreResult_details_down {hb lb today : Bar} {t : ℚ}
    (h : Date.gtb lb.date hb.date = false)
    (hsig : ratAbs (today.Open - today.High) ≤ t) :
    (coreResult hb lb today t).2.2 = some
      { trend := "down", current_price := today.Open
        latest_date := Date.toIso today.date
        action := some "SELL", stoploss := some hb.High, target := some lb.Low
        high_date := Date.toIso hb.date, low_date := Date.toIso lb.date } := by
  simp [coreResult, h, hsig]

theorem coreResult_ref_dates (hb lb today : Bar) (t : ℚ) :
    ((coreResult hb lb today t).2.2).map ActionDetails.high_date =
        some (Date.toIso hb.date) ∧
      ((coreResult hb lb today t).2.2).map ActionDetails.low_date =
        some (Date.toIso lb.date) ∧
      ((coreResult hb lb today t).2.2).map ActionDetails.current_price =
        some today.Open ∧
      ((coreResult hb lb today t).2.2).map ActionDetails.latest_date =
        some (Date.toIso today.date) := by
  refine ⟨?_, ?_, ?_, ?_⟩ <;> (unfold coreResult; dsimp only; split_ifs <;> rfl)

/-! The claims. -/

/-- Claim C1: on a non-empty well-formed window, `analyze_market`
classifies the trend as "up" exactly when the date of the selected
lowest-low bar is strictly later than the date of the selected
highest-high bar, and as "down" in every other case (equal dates
included, as in a one-bar window). -/
theorem claim_C1 (w : List Bar) (threshold : ℚ)
    (hw : WellFormed w) (hne : w ≠ [])
    {hb lb : Bar}
    (hhb : idxmaxBy Bar.High w = some hb) (hlb : idxminBy Bar.Low w = some lb) :
    ((analyze_market (toRaw w) threshold).1 = some "up" ↔
      Date.ltb hb.date lb.date = true) ∧
    ((analyze_market (toRaw w) threshold).1 = some "down" ↔
      Date.ltb hb.date lb.date = false) := by
  obtain ⟨today, ht⟩ := exists_getLastSome hne
  rw [analyze_eq_coreResult hw hhb hlb ht, coreResult_fst, Date.gtb]
  cases h : Date.ltb hb.date lb.date with
  | true => simp [h]
  | false => simp [h]

/-- Witness for C1 at the concrete window `wexA`: trend is "up" there,
and the lowest low (2024-01-03) indeed postdates the highest high
(2024-01-01). -/
theorem claim_C1_witness :
    ((analyze_market (toRaw wexA) 3).1 = some "up" ↔
      Date.ltb bA1.date bA3.date = true) ∧
    ((analyze_market (toRaw wexA) 3).1 = some "down" ↔
      Date.ltb bA1.date bA3.date = false) :=
  claim_C1 wexA 3 (by decide) (by decide) (by decide) (by decide)

/-- Claim C2: on a non-empty well-formed window with a non-negative
threshold, the breakout test reads the chronologically last bar: under
trend "up" the signal fires iff that bar's open is within the threshold
of its low, and under trend "down" iff its open is within the threshold
of its high. -/
theorem claim_C2 (w : List Bar) (threshold : ℚ)
    (hw : WellFormed w) (hne : w ≠ []) (_hth : 0 ≤ threshold)
    {today : Bar} (ht : w.getLast? = some today) :
    (∀ x ∈ w, x = today ∨ Date.ltb x.date today.date = true) ∧
    ((analyze_market (toRaw w) threshold).1 = some "up" →
      ((analyze_market (toRaw w) threshold).2.1 = true ↔
        |today.Open - today.Low| ≤ threshold)) ∧
    ((analyze_market (toRaw w) threshold).1 = some "down" →
      ((analyze_market (toRaw w) threshold).2.1 = true ↔
        |today.Open - today.High| ≤ threshold)) := by
  obtain ⟨hb, hhb⟩ := exists_idxmaxSome hne
  obtain ⟨lb, hlb⟩ := exists_idxminSome hne
  rw [analyze_eq_coreResult hw hhb hlb ht]
  refine ⟨getLast?_latest hw ht, ?_, ?_⟩
  · intro hup
    cases h : Date.gtb lb.date hb.date with
    | true =>
      rw [coreResult_snd_up today threshold h, ratAbs_eq_abs]
      exact decide_eq_true_iff
    | false =>
      rw [coreResult_fst, h] at hup
      simp at hup
  · intro hdn
    cases h : Date.gtb lb.date hb.date with
    | true =>
      rw [coreResult_fst, h] at hdn
      simp at hdn
    | false =>
      rw [coreResult_snd_down today threshold h, ratAbs_eq_abs]
      exact decide_eq_true_iff

/-- Witness for C2 at `wexA` with threshold 3: the last bar is bA3 and
the stated equivalences hold there. -/
theorem claim_C2_witness :
    (∀ x ∈ wexA, x = bA3 ∨ Date.ltb x.date bA3.date = true) ∧
    ((analyze_market (toRaw wexA) 3).1 = some "up" →
      ((analyze_market (toRaw wexA) 3).2.1 = true ↔
        |bA3.Open - bA3.Low| ≤ 3)) ∧
    ((analyze_market (toRaw wexA) 3).1 = some "down" →
      ((analyze_market (toRaw wexA) 3).2.1 = true ↔
        |bA3.Open - bA3.High| ≤ 3)) :=
  claim_C2 wexA 3 (by decide) (by decide) (by decide) (by decide)

/-- Claim C3: whenever the breakout triggers on a non-empty well-formed
window, the produced details carry — under trend "up" — action BUY,
stoploss the window's minimum low and target the window's maximum high,
and — under trend "down" — action SELL, stoploss the window's maximum
high and target the window's minimum low; in both cases the current
price is the last bar's open and the as-of date is the last bar's date
(rendered YYYY-MM-DD). -/
theorem claim_C3 (w : List Bar) (threshold : ℚ)
    (hw : WellFormed w) (hne : w ≠ [])
    (htrig : (analyze_market (toRaw w) threshold).2.1 = true)
    {today : Bar} (ht : w.getLast? = some today) :
    ∃ d, (analyze_market (toRaw w) threshold).2.2 = some d ∧
      d.current_price = today.Open ∧
      d.latest_date = Date.toIso today.date ∧
      ((analyze_market (toRaw w) threshold).1 = some "up" →
        d.action = some "BUY" ∧
        (∃ v, d.stoploss = some v ∧ (∀ x ∈ w, v ≤ x.Low) ∧ ∃ x ∈ w, x.Low = v) ∧
        (∃ v, d.target = some v ∧ (∀ x ∈ w, x.High ≤ v) ∧ ∃ x ∈ w, x.High = v)) ∧
      ((analyze_market (toRaw w) threshold).1 = some "down" →
        d.action = some "SELL" ∧
        (∃ v, d.stoploss = some v ∧ (∀ x ∈ w, x.High ≤ v) ∧ ∃ x ∈ w, x.High = v) ∧
        (∃ v, d.target = some v ∧ (∀ x ∈ w, v ≤ x.Low) ∧ ∃ x ∈ w, x.Low = v)) := by
  obtain ⟨hb, hhb⟩ := exists_idxmaxSome hne
  obtain ⟨lb, hlb⟩ := exists_idxminSome hne
  rw [analyze_eq_coreResult hw hhb hlb ht] at htrig ⊢
  cases h : Date.gtb lb.date hb.date with
  | true =>
    rw [coreResult_snd_up today threshold h] at htrig
    have hsig : ratAbs (today.Open - today.Low) ≤ threshold := of_decide_eq_true htrig
    refine ⟨_, coreResult_details_up h hsig, rfl, rfl, ?_, ?_⟩
    · intro _
      exact ⟨rfl, ⟨lb.Low, rfl, idxminBy_le hlb, lb, idxminBy_mem hlb, rfl⟩,
             ⟨hb.High, rfl, idxmaxBy_le hhb, hb, idxmaxBy_mem hhb, rfl⟩⟩
    · intro hdn
      rw [coreResult_fst, h] at hdn
      simp at hdn
  | false =>
    rw [coreResult_snd_down today threshold h] at htrig
    have hsig : ratAbs (today.Open - today.High) ≤ threshold := of_decide_eq_true htrig
    refine ⟨_, coreResult_details_down h hsig, rfl, rfl, ?_, ?_⟩
    · intro hup
      rw [coreResult_fst, h] at hup
      simp at hup
    · intro _
      exact ⟨rfl, ⟨hb.High, rfl, idxmaxBy_le hhb, hb, idxmaxBy_mem hhb, rfl⟩,
             ⟨lb.Low, rfl, idxminBy_le hlb, lb, idxminBy_mem hlb, rfl⟩⟩

/-- Concrete evaluation helper: the breakout signal fires on `wexA`. -/
theorem wexA_signal : (analyze_market (toRaw wexA) 3).2.1 = true := by
  rw [@analyze_eq_coreResult wexA (by decide) bA1 bA3 bA3 (by decide) (by decide)
    (by decide) 3]
  rw [coreResult_snd_up bA3 3 (by decide), decide_eq_true_eq]
  norm_num [ratAbs, bA3]

/-- Witness for C3 at `wexA` with threshold 3: the breakout fires there
(trend "up", last open 91 within 3 of low 89). -/
theorem claim_C3_witness :
    ∃ d, (analyze_market (toRaw wexA) 3).2.2 = some d ∧
      d.current_price = bA3.Open ∧
      d.latest_date = Date.toIso bA3.date ∧
      ((analyze_market (toRaw wexA) 3).1 = some "up" →
        d.action = some "BUY" ∧
        (∃ v, d.stoploss = some v ∧ (∀ x ∈ wexA, v ≤ x.Low) ∧ ∃ x ∈ wexA, x.Low = v) ∧
        (∃ v, d.target = some v ∧ (∀ x ∈ wexA, x.High ≤ v) ∧ ∃ x ∈ wexA, x.High = v)) ∧
      ((analyze_market (toRaw wexA) 3).1 = some "down" →
        d.action = some "SELL" ∧
        (∃ v, d.stoploss = some v ∧ (∀ x ∈ wexA, x.High ≤ v) ∧ ∃ x ∈ wexA, x.High = v) ∧
        (∃ v, d.target = some v ∧ (∀ x ∈ wexA, v ≤ x.Low) ∧ ∃ x ∈ wexA, x.Low = v)) :=
  claim_C3 wexA 3 (by decide) (by decide) wexA_signal (by decide)


theorem parseBar_none {r : RawBar}
    (hf : r.Open = none ∨ r.High = none ∨ r.Low = none) : parseBar r = none := by
  obtain ⟨d, o, hi, lo⟩ := r
  rw [parseBar]
  rcases hf with h | h | h <;> (dsimp only at h; subst h)
  · cases hi <;> cases lo <;> rfl
  · cases o <;> cases lo <;> rfl
  · cases o <;> cases hi <;> rfl

theorem parseWindow_bad :
    ∀ {l : List RawBar},
      (∃ r ∈ l, r.Open = none ∨ r.High = none ∨ r.Low = none) →
        parseWindow l = none := by
  intro l hl
  induction l with
  | nil => obtain ⟨r, hr, _⟩ := hl; cases hr
  | cons a t ih =>
    obtain ⟨r, hr, hf⟩ := hl
    rw [parseWindow]
    rcases List.mem_cons.mp hr with rfl | hr2
    · rw [parseBar_none hf]
    · rw [ih ⟨r, hr2, hf⟩]
      cases parseBar a <;> rfl

/-- Claim C5: `analyze_market` never lets a failure escape — it is a
total function into outcomes — and on an empty window or a window with
a missing or non-numeric field it returns the failure outcome: trend
absent, breakout false, no details. -/
theorem claim_C5 (data : List RawBar) (threshold : ℚ)
    (hbad : data = [] ∨ ∃ r ∈ data, r.Open = none ∨ r.High = none ∨ r.Low = none) :
    analyze_market data threshold = (none, false, none) := by
  rcases hbad with rfl | hex
  · rfl
  · rw [analyze_market, parseWindow_bad hex]

/-- Witness for C5: a one-row window whose Open field is missing yields
the failure outcome. -/
theorem claim_C5_witness :
    analyze_market [RawBar.mk ⟨2024, 1, 5⟩ none (some 100) (some 90)] 3 =
      (none, false, none) :=
  claim_C5 _ 3 (Or.inr ⟨_, List.mem_singleton.mpr rfl, Or.inl rfl⟩)

theorem processSymbol_symbol (provider : String → Option (List RawBar))
    (s : String) : (processSymbol provider s).symbol = s := by
  unfold processSymbol
  repeat' split
  all_goals rfl

/-- Claim C6: the batch loop visits every symbol of the input list
exactly once, in list order; each symbol is processed independently, so
dropping any one symbol (for instance one whose provider result is
empty or whose processing fails) leaves every other symbol outcome
unchanged; and the loop always runs to the end of the list. -/
theorem claim_C6 (provider : String → Option (List RawBar))
    (pre post : List String) (s : String) :
    runBatch provider (pre ++ s :: post) =
      runBatch provider pre ++ processSymbol provider s :: runBatch provider post ∧
    runBatch provider (pre ++ post) =
      runBatch provider pre ++ runBatch provider post ∧
    ∀ symbols : List String,
      (runBatch provider symbols).map SymbolOutcome.symbol = symbols := by
  refine ⟨?_, ?_, ?_⟩
  · rw [runBatch, runBatch, runBatch, List.map_append, List.map_cons]
  · rw [runBatch, runBatch, runBatch, List.map_append]
  · intro symbols
    induction symbols with
    | nil => rfl
    | cons a t ih =>
      rw [runBatch, List.map_cons, List.map_cons, processSymbol_symbol]
      rw [runBatch] at ih
      rw [ih]

/-- Witness for C6 at a concrete split: one leading symbol, a middle
symbol whose provider result is empty, one trailing symbol. -/
theorem claim_C6_witness :
    (runBatch (fun _ => some []) (["A"] ++ "B" :: ["C"]) =
      runBatch (fun _ => some []) ["A"] ++
        processSymbol (fun _ => some []) "B" :: runBatch (fun _ => some []) ["C"]) ∧
    (runBatch (fun _ => some []) (["A"] ++ ["C"]) =
      runBatch (fun _ => some []) ["A"] ++ runBatch (fun _ => some []) ["C"]) ∧
    ∀ symbols : List String,
      (runBatch (fun _ => some []) symbols).map SymbolOutcome.symbol = symbols :=
  claim_C6 (fun _ => some []) ["A"] ["C"] "B"

/-- Claim C7: `analyze_market` is deterministic and does not modify its
window: calling it twice on the same window with the same threshold
(threading the window state through the first call) yields the same
outcome, and the window is unchanged after each call. -/
theorem claim_C7 (data : List RawBar) (threshold : ℚ) :
    (analyze_market_call data threshold).1 =
      (analyze_market_call (analyze_market_call data threshold).2 threshold).1 ∧
    (analyze_market_call data threshold).2 = data ∧
    (analyze_market_call (analyze_market_call data threshold).2 threshold).2 = data :=
  ⟨rfl, rfl, rfl⟩

/-- Claim C4: on a chronologically ascending window, the bar selected
for the maximum high is a bar attaining the maximum and chronologically
earliest among all bars sharing that value, symmetrically for the
minimum low; and its date is what `analyze_market` reports as the
high/low reference date. -/
theorem claim_C4 (w : List Bar) (hw : WellFormed w)
    {hb lb : Bar}
    (hhb : idxmaxBy Bar.High w = some hb) (hlb : idxminBy Bar.Low w = some lb) :
    (hb ∈ w ∧ (∀ x ∈ w, x.High ≤ hb.High) ∧
      ∀ x ∈ w, x.High = hb.High → x = hb ∨ Date.ltb hb.date x.date = true) ∧
    (lb ∈ w ∧ (∀ x ∈ w, lb.Low ≤ x.Low) ∧
      ∀ x ∈ w, x.Low = lb.Low → x = lb ∨ Date.ltb lb.date x.date = true) ∧
    (∀ threshold d, (analyze_market (toRaw w) threshold).2.2 = some d →
      d.high_date = Date.toIso hb.date ∧ d.low_date = Date.toIso lb.date) := by
  have hne : w ≠ [] := by
    intro he
    subst he
    simp [idxmaxBy] at hhb
  obtain ⟨today, ht⟩ := exists_getLastSome hne
  refine ⟨⟨idxmaxBy_mem hhb, idxmaxBy_le hhb, idxmaxBy_earliest hw hhb⟩,
          ⟨idxminBy_mem hlb, idxminBy_le hlb, idxminBy_earliest hw hlb⟩, ?_⟩
  intro threshold d hd
  rw [analyze_eq_coreResult hw hhb hlb ht] at hd
  obtain ⟨h1, h2, _, _⟩ := coreResult_ref_dates hb lb today threshold
  rw [hd] at h1 h2
  simp only [Option.map_some', Option.some.injEq] at h1 h2
  exact ⟨h1, h2⟩

/-- Witness for C4 at the tied window `wexT`: the selected high bar is
bT1 (the earlier of the two 120-highs) and the selected low bar is bT2
(the earlier of the two 8-lows). -/
theorem claim_C4_witness :
    (bT1 ∈ wexT ∧ (∀ x ∈ wexT, x.High ≤ bT1.High) ∧
      ∀ x ∈ wexT, x.High = bT1.High → x = bT1 ∨ Date.ltb bT1.date x.date = true) ∧
    (bT2 ∈ wexT ∧ (∀ x ∈ wexT, bT2.Low ≤ x.Low) ∧
      ∀ x ∈ wexT, x.Low = bT2.Low → x = bT2 ∨ Date.ltb bT2.date x.date = true) ∧
    (∀ threshold d, (analyze_market (toRaw wexT) threshold).2.2 = some d →
      d.high_date = Date.toIso bT1.date ∧ d.low_date = Date.toIso bT2.date) :=
  claim_C4 wexT (by decide) (by decide) (by decide)

theorem body_template_eq (a sym tr : String) (cp : ℚ) (ld : String)
    (sl tg : ℚ) (hd lowd : String) :
    BODY_TEMPLATE_format a sym tr cp ld sl tg hd lowd =
      "\x0a" ++ specBodyTemplate a sym tr cp ld sl tg hd lowd := by
  rw [BODY_TEMPLATE_format, specBodyTemplate]
  simp only [← String.append_assoc]
  rfl

/-- Counterexample for C8 as stated: the delivered body is not
character-for-character the §6 template — the source's triple-quoted
`BODY_TEMPLATE` opens with a newline that the spec's fenced block does
not contain, so the two strings differ (in length by one) already at
this concrete recommendation. -/
theorem claim_C8_counterexample :
    BODY_TEMPLATE_format "BUY" "TCS" "up" 100 "2024-01-03" 89 110
        "2024-01-01" "2024-01-03" ≠
      specBodyTemplate "BUY" "TCS" "up" 100 "2024-01-03" 89 110
        "2024-01-01" "2024-01-03" := by
  intro h
  rw [body_template_eq] at h
  have hl := congrArg String.length h
  rw [String.length_append] at hl
  rw [show ("\x0a" : String).length = 1 from rfl] at hl
  omega

/-- Claim C8 (amended): for every delivery the loop records, the subject
is exactly "Trade Signal: action symbol", the recipient is the fixed
receiver address, and the body is exactly the §6 template instantiated
with the recommendation's fields — preceded by one extra newline (and
ending in one), because the source template opens and closes with a
newline. -/
theorem claim_C8 (provider : String → Option (List RawBar))
    (symbol subj body rcpt : String)
    (h : (processSymbol provider symbol).delivered = some (subj, body, rcpt)) :
    ∃ (act : String) (d : ActionDetails) (sl tg : ℚ),
      d.action = some act ∧ d.stoploss = some sl ∧ d.target = some tg ∧
      subj = "Trade Signal: " ++ act ++ " " ++ symbol ∧
      body = "\x0a" ++ specBodyTemplate act symbol d.trend d.current_price
        d.latest_date sl tg d.high_date d.low_date ∧
      rcpt = RECEIVER_EMAIL := by
  unfold processSymbol at h
  rcases hg : get_trend_details provider symbol with ⟨trend, signal, details⟩
  rw [hg] at h
  cases signal with
  | false => simp at h
  | true =>
    cases details with
    | none => simp at h
    | some d =>
      dsimp only at h
      cases hact : d.action with
      | none => rw [hact] at h; simp at h
      | some act =>
        cases hsl : d.stoploss with
        | none => rw [hact, hsl] at h; simp at h
        | some sl =>
          cases htg : d.target with
          | none => rw [hact, hsl, htg] at h; simp at h
          | some tg =>
            rw [hact, hsl, htg] at h
            dsimp only at h
            simp only [if_true, Option.some.injEq, Prod.mk.injEq] at h
            obtain ⟨h1, h2, h3⟩ := h
            exact ⟨act, d, sl, tg, hact, hsl, htg, by rw [← h1]; rfl,
              by rw [← h2, body_template_eq], h3.symm⟩

/-- Concrete evaluation helper: the whole per-symbol step on a provider
serving `wexA`, including the delivery it records. -/
theorem processSymbol_wexA :
    processSymbol (fun _ => some (toRaw wexA)) "TCS" =
      { symbol := "TCS", trend := some "up", signal := true
        delivered := some (mkSubject "BUY" "TCS",
          BODY_TEMPLATE_format "BUY" "TCS" dRecA.trend dRecA.current_price
            dRecA.latest_date bA3.Low bA1.High dRecA.high_date dRecA.low_date,
          RECEIVER_EMAIL) } := by
  have hup : Date.gtb bA3.date bA1.date = true := by decide
  have hsig2 : ratAbs (bA3.Open - bA3.Low) ≤ 3 := by norm_num [ratAbs, bA3]
  have hfst : (coreResult bA1 bA3 bA3 3).1 = some "up" := by
    rw [coreResult_fst]
    simp [hup]
  have hsnd : (coreResult bA1 bA3 bA3 3).2.1 = true := by
    rw [coreResult_snd_up bA3 3 hup, decide_eq_true_eq]
    exact hsig2
  have hdet : (coreResult bA1 bA3 bA3 3).2.2 = some dRecA :=
    coreResult_details_up hup hsig2
  have htup : coreResult bA1 bA3 bA3 3 = (some "up", true, some dRecA) :=
    Prod.ext hfst (Prod.ext hsnd hdet)
  have hga : get_trend_details (fun _ => some (toRaw wexA)) "TCS" =
      (some "up", true, some dRecA) := by
    unfold get_trend_details
    rw [show get_data (fun _ => some (toRaw wexA)) "TCS" = toRaw wexA from rfl]
    rw [if_neg (by decide)]
    rw [@analyze_eq_coreResult wexA (by decide) bA1 bA3 bA3 (by decide) (by decide)
      (by decide) 3, htup]
  unfold processSymbol
  rw [hga]
  rfl

/-- Witness for C8 (amended) at a provider serving `wexA`: the recorded
delivery for symbol TCS satisfies the subject/body/recipient shape. -/
theorem claim_C8_witness :
    ∃ (act : String) (d : ActionDetails) (sl tg : ℚ),
      d.action = some act ∧ d.stoploss = some sl ∧ d.target = some tg ∧
      mkSubject "BUY" "TCS" = "Trade Signal: " ++ act ++ " " ++ "TCS" ∧
      BODY_TEMPLATE_format "BUY" "TCS" dRecA.trend dRecA.current_price
          dRecA.latest_date bA3.Low bA1.High dRecA.high_date dRecA.low_date =
        "\x0a" ++ specBodyTemplate act "TCS" d.trend d.current_price
          d.latest_date sl tg d.high_date d.low_date ∧
      RECEIVER_EMAIL = RECEIVER_EMAIL :=
  claim_C8 (fun _ => some (toRaw wexA)) "TCS" (mkSubject "BUY" "TCS")
    (BODY_TEMPLATE_format "BUY" "TCS" dRecA.trend dRecA.current_price
      dRecA.latest_date bA3.Low bA1.High dRecA.high_date dRecA.low_date)
    RECEIVER_EMAIL (by rw [processSymbol_wexA])

/-- Claim C9: loading the ticker file keeps, in file order, exactly the
lines that are non-blank after stripping surrounding whitespace, each
with the whitespace stripped; blank lines vanish and duplicates are
kept (loading a file with its lines repeated repeats the output). -/
theorem claim_C9 (fileLines : List String) :
    load_tickers fileLines =
      (fileLines.map String.trim).filter (fun s => s != "") ∧
    load_tickers (fileLines ++ fileLines) =
      load_tickers fileLines ++ load_tickers fileLines := by
  constructor
  · rw [load_tickers, List.filter_map]
    rfl
  · simp only [load_tickers]
    rw [List.filter_append, List.map_append]

/-- Claim C10: along the orchestration path the analysis threshold is
the fixed default 3 — `get_trend_details` analyzes the fetched window
with threshold 3 (or short-circuits an empty fetch), and the loop body
takes its trend and signal from exactly that call; no other threshold
enters. -/
theorem claim_C10 (provider : String → Option (List RawBar)) (s : String) :
    get_trend_details provider s =
      (if (get_data provider s).isEmpty then (none, false, none)
        else analyze_market (get_data provider s) 3) ∧
    (processSymbol provider s).trend = (get_trend_details provider s).1 ∧
    (processSymbol provider s).signal = (get_trend_details provider s).2.1 := by
  refine ⟨rfl, ?_, ?_⟩
  · unfold processSymbol
    rcases hg : get_trend_details provider s with ⟨trend, signal, details⟩
    dsimp only
    repeat' split
    all_goals rfl
  · unfold processSymbol
    rcases hg : get_trend_details provider s with ⟨trend, signal, details⟩
    dsimp only
    repeat' split
    all_goals rfl
